import Mathlib

/-!
Verification of the coolq client (`src/coolq/cqclient.go`, package `coolq`).

The development is a shallow embedding of `cqclient.go`:

* the echo queue `echoqueue map[int64]bool` becomes an association list
  `List (Int × Bool)` whose key is the echo (a unix timestamp in seconds)
  and whose value is the Go map's boolean state flag;
* `deqEcho`, the resolve branch of `apiConn.OnMessage` and one pass of the
  30-second sweep goroutine become pure state transformers on that list;
* the websocket send path (`IsAPIOk`, `APISendJSON`, `SendGroupMsg`) becomes
  a transformer on a small client state holding the connectivity flag, the
  list of transmitted payloads and the echo queue; the wall clock is passed
  explicitly;
* plugin registration (`RegisterAllPlugins`) and the event fan-out of
  `eventConn.OnMessage` become functions from plugins (keyed filter and
  handler association lists) to dispatch entries, and from an entry and an
  event to the list of handler invocations the event produces; an invocation
  is recorded as the pair (key the handler was declared under, handler
  value), so that invocations of a particular declared handler can be
  counted;
* `GetStatus` becomes a function of the configured api url and of the
  outcome of the http round trip, returning one of: a decoded status
  structure, the `nil` failure indicator, or a runtime panic marker (a Go
  type assertion such as `.(map[string]interface{})` or `.(bool)` panics
  when the dynamic type does not match).

Logging is modelled by functions returning the list of logged items
(`sweepLogged`, `registrationWarnings`, `loadErrors`).
-/

namespace Coolq

/-! ## Constants -/

/-- `const timeForWait = 30` (cqclient.go line 16): both the sweep period and
the response timeout threshold, in seconds. -/
def timeForWait : Int := 30

/-- `const noFilterKey = "__NEVER_SET_UNUSED_KEY__"` (line 18): the reserved
key under which the synthesized catch-all handler is stored. -/
def noFilterKey : String := "__NEVER_SET_UNUSED_KEY__"

/-! ## Correlator state: the echo queue -/

/-- The field `echoqueue map[int64]bool` of `cqclient` (line 42), as an
association list from echo id (unix seconds) to the boolean state flag. -/
abbrev EchoQueue := List (Int × Bool)

/-- Reading `c.echoqueue[echo]` in Go yields the zero value `false` when the
key is absent. -/
def EchoQueue.state (q : EchoQueue) (echo : Int) : Bool :=
  (q.lookup echo).getD false

/-- An id is pending when it is stored with flag `true`. -/
def EchoQueue.pending (q : EchoQueue) (echo : Int) : Bool :=
  EchoQueue.state q echo

/-- `deqEcho` (lines 108-112): `delete(c.echoqueue, echo)`. -/
def deqEcho (q : EchoQueue) (echo : Int) : EchoQueue :=
  q.filter (fun p => !(p.1 == echo))

/-- The echo-resolution branch of `apiConn.OnMessage` (lines 142-145):
`if c.echoqueue[echo] { c.deqEcho(echo) }`. -/
def resolveEcho (q : EchoQueue) (echo : Int) : EchoQueue :=
  if EchoQueue.state q echo then deqEcho q echo else q

/-- Modelled from the spec: `Track(id)`: record `id` as pending with the
current time.  No statement in `cqclient.go` ever inserts into `echoqueue`
(the send paths build the payload with `Echo: time.Now().Unix()` but never
touch the queue), so the insertion the spec's Correlator contract describes
is modelled here as the Go map insert `c.echoqueue[id] = true`; the creation
time is the id itself, since the id is the unix timestamp at send time. -/
def track (q : EchoQueue) (id : Int) : EchoQueue :=
  (id, true) :: deqEcho q id

/-- One pass of the sweep goroutine body (lines 176-183): every entry with
`state && now-echo > timeForWait` is removed via `deqEcho`; the rest stay. -/
def sweepPass (q : EchoQueue) (now : Int) : EchoQueue :=
  q.filter (fun p => !(p.2 && decide (timeForWait < now - p.1)))

/-- The ids the sweep pass logs as `(echo) id = %d response time out (30s)`
(line 180). -/
def sweepLogged (q : EchoQueue) (now : Int) : List Int :=
  (q.filter (fun p => p.2 && decide (timeForWait < now - p.1))).map (·.1)

/-! ## Client state and the websocket send path -/

/-- Payload parameter objects of the outbound websocket commands
(`CQTypeSendGroupMsg` and friends, declared outside `cqclient.go`; only the
carried data matters here). -/
inductive CQParams where
  | sendGroupMsg (groupID : Int) (message : String)
  | sendPrivateMsg (userID : Int) (message : String)
  | setGroupKick (groupID userID : Int) (reject : Bool)
  | setGroupBan (groupID userID duration : Int)
  | setGroupWholeBan (groupID : Int) (enable : Bool)
deriving DecidableEq

/-- Modelled from the spec: the action-name constant for the group-message
command, declared outside `cqclient.go`; only its identity matters here. -/
def ActionSendGroupMsg : String := "send_group_msg"

/-- The outbound command envelope `CQWSMessage` (action, params, echo). -/
structure CQWSMessage where
  action : String
  params : CQParams
  echo : Int
deriving DecidableEq

/-- The observable state of the client relevant to the send path: the
connectivity of `apiConn`, the payloads handed to `apiConn.Send`, and the
echo queue. -/
structure CQClient where
  connected : Bool
  sent : List CQWSMessage
  echoqueue : EchoQueue
deriving DecidableEq

/-- `IsAPIOk` (lines 202-204): `c.apiConn.IsConnected()`. -/
def IsAPIOk (c : CQClient) : Bool := c.connected

/-- `APISendJSON` (lines 212-218): return immediately when the api
connection is down, otherwise marshal and transmit the payload.  The Go
function returns nothing, so the model returns only the updated state. -/
def APISendJSON (c : CQClient) (data : CQWSMessage) : CQClient :=
  if !(IsAPIOk c) then c
  else { c with sent := c.sent ++ [data] }

/-- `SendGroupMsg` (lines 222-232): build the envelope with
`Echo: time.Now().Unix()` (the clock value is the explicit `now` argument)
and pass it to `APISendJSON`.  Note: nothing here (or anywhere else in the
file) writes to `c.echoqueue`. -/
def SendGroupMsg (c : CQClient) (now groupID : Int) (message : String) : CQClient :=
  APISendJSON c ⟨ActionSendGroupMsg, CQParams.sendGroupMsg groupID message, now⟩

/-! ## Plugins, registration and dispatch

Events (`E`) are treated as opaque values; handlers are identified by opaque
values of a type `H` (two handlers with distinct `H` values are distinct
functions). -/

/-- A plugin as `RegisterAllPlugins` consumes it: its name, the outcome of
its fallible `Load()`, and its `Filters()` and `Handlers()` maps (Go maps,
so the key lists are duplicate-free in any state reachable from Go). -/
structure Plugin (E H : Type) where
  name : String
  loadOk : Bool
  filters : List (String × (E → Bool))
  handlers : List (String × H)

/-- A value stored in a dispatch entry's handler map: either a handler taken
from the plugin (`plain`) or the synthesized catch-all closure built at line
95, holding the handlers that lacked a paired filter together with the keys
they were declared under. -/
inductive HVal (H : Type) where
  | plain (h : H)
  | catchAll (hs : List (String × H))

/-- `pluginEntry` (lines 26-30), keeping the source's field spelling. -/
structure pluginEntry (E H : Type) where
  keys : List String
  fitlers : List (String × (E → Bool))
  handlers : List (String × HVal H)

variable {E H : Type}

/-- The `hasFilter` map built in the pairing loop (lines 78-88): a key is
marked exactly when some filter entry under it found a handler. -/
def hasFilterFn (p : Plugin E H) (k : String) : Bool :=
  p.filters.any (fun kf => kf.1 == k && (p.handlers.lookup kf.1).isSome)

/-- The filter pairs that survive the pairing loop (lines 78-88): those
whose key also appears in the handlers map. -/
def pairedFilters (p : Plugin E H) : List (String × (E → Bool)) :=
  p.filters.filter (fun kf => (p.handlers.lookup kf.1).isSome)

/-- The handler map as filled by the pairing loop (line 87), before the
catch-all is stored. -/
def pairedHandlers (p : Plugin E H) : List (String × HVal H) :=
  (pairedFilters p).filterMap
    (fun kf => (p.handlers.lookup kf.1).map (fun h => (kf.1, HVal.plain h)))

/-- `noFilterHanlers` (lines 89-93, keeping the source's spelling): every
handler whose key was not marked in `hasFilter`, with its declaring key. -/
def noFilterHanlers (p : Plugin E H) : List (String × H) :=
  p.handlers.filter (fun kh => !(hasFilterFn p kh.1))

/-- Go map insert `m[k] = v`: any previous binding of `k` is overwritten. -/
def setKey {α : Type} (l : List (String × α)) (k : String) (v : α) : List (String × α) :=
  l.filter (fun q => !(q.1 == k)) ++ [(k, v)]

/-- The dispatch entry built for one loaded plugin (lines 66-100): the key
list and filter map from the pairing loop, and the handler map from the
pairing loop followed by the unconditional store of the catch-all under
`noFilterKey` (line 95) — which overwrites any handler registered under
that key. -/
def mkEntry (p : Plugin E H) : pluginEntry E H :=
  ⟨(pairedFilters p).map (·.1),
   pairedFilters p,
   setKey (pairedHandlers p) noFilterKey (HVal.catchAll (noFilterHanlers p))⟩

/-- `RegisterAllPlugins` (lines 52-106): load every plugin, drop the ones
whose `Load()` fails, and install one entry per loaded plugin under its
name.  The Go function returns nothing and surfaces no error; the model is
a total function producing the `pluginEntries` map. -/
def registerAllPlugins (plugins : List (Plugin E H)) : List (String × pluginEntry E H) :=
  (plugins.filter (fun p => p.loadOk)).map (fun p => (p.name, mkEntry p))

/-- The plugin names logged by the load phase (line 58). -/
def loadErrors (plugins : List (Plugin E H)) : List String :=
  (plugins.filter (fun p => !p.loadOk)).map (·.name)

/-- The unused filter keys warned about during pairing (line 81). -/
def registrationWarnings (p : Plugin E H) : List String :=
  (p.filters.filter (fun kf => (p.handlers.lookup kf.1).isNone)).map (·.1)

/-- Running a stored handler value on an event: a plain handler is one
invocation under its dispatch key; the catch-all sequentially invokes every
stored unpaired handler (lines 95-99). -/
def runHVal (k : String) (v : HVal H) : List (String × H) :=
  match v with
  | HVal.plain h => [(k, h)]
  | HVal.catchAll hs => hs

/-- One unit of the keyed fan-out of `eventConn.OnMessage` (lines 159-165):
evaluate the filter stored under `k` and, only when it accepts the event,
run the handler stored under `k`. -/
def keyedUnit (en : pluginEntry E H) (e : E) (k : String) : List (String × H) :=
  match en.fitlers.lookup k, en.handlers.lookup k with
  | some f, some v => if f e then runHVal k v else []
  | _, _ => []

/-- The invocations one entry produces for one event (lines 155-166): the
handler stored under `noFilterKey` runs unconditionally (line 157), then one
keyed unit per key in the entry's key list. -/
def dispatchEntry (en : pluginEntry E H) (e : E) : List (String × H) :=
  (match en.handlers.lookup noFilterKey with
   | some v => runHVal noFilterKey v
   | none => []) ++ en.keys.flatMap (keyedUnit en e)

/-- The keys whose filters a dispatch evaluates: the loop at lines 159-165
ranges exactly over `entry.keys`. -/
def dispatchFilterEvals (en : pluginEntry E H) : List String := en.keys

/-- Full fan-out over the registry (line 155): every entry dispatches, each
invocation tagged with its plugin's name. -/
def dispatchAll (reg : List (String × pluginEntry E H)) (e : E) : List (String × String × H) :=
  reg.flatMap (fun ne => (dispatchEntry ne.2 e).map (fun kh => (ne.1, kh.1, kh.2)))

/-- How often the handler declared under key `k` with value `h` is invoked
in an invocation list. -/
def countOcc [DecidableEq H] (l : List (String × H)) (k : String) (h : H) : Nat :=
  (l.filter (fun q => decide (q = (k, h)))).length

/-! ## The http status query -/

/-- Untyped JSON values, the shape `interface{}` carries after
`encoding/json` decoding. -/
inductive JVal where
  | null
  | bool (b : Bool)
  | num (n : Int)
  | str (s : String)
  | arr (xs : List JVal)
  | obj (fields : List (String × JVal))

/-- The inbound reply envelope `CQResponse` (retcode, data, echo). -/
structure CQResponse where
  retcode : Int
  data : JVal
  echo : Int

/-- `CQTypeGetStatus`: the six boolean health flags (lines 327-332). -/
structure CQTypeGetStatus where
  appInitialized : Bool
  appEnabled : Bool
  pluginsGood : Bool
  appGood : Bool
  online : Bool
  good : Bool
deriving DecidableEq

/-- The observable outcome of `GetStatus`: a decoded status, the `nil`
failure indicator, or a runtime panic raised by a failed type assertion. -/
inductive GetStatusOutcome where
  | ok (s : CQTypeGetStatus)
  | nil
  | panicked
deriving DecidableEq

/-- The outcome of `c.httpConn.Get(url)` followed by the JSON decode of the
body (lines 311-321): a transport error, a decoder error, or an envelope. -/
inductive HTTPGetResult where
  | httpError
  | decodeError
  | ok (r : CQResponse)

/-- Go type assertion `x.(bool)` on a map read: the boolean when the entry
exists and has dynamic type bool, otherwise the assertion panics (`none`). -/
def asBool : Option JVal → Option Bool
  | some (JVal.bool b) => some b
  | _ => none

/-- `getAPIURL` (lines 299-301). -/
def getAPIURL (apiURL api : String) : String := apiURL ++ "/" ++ api

/-- The field extraction of lines 325-332: `response.Data` is asserted to be
a map, then each of the six fields is read and asserted to be a bool, in
order; the first failing assertion panics (`none`). -/
def getStatusFields (data : List (String × JVal)) : Option CQTypeGetStatus := do
  let a ← asBool (data.lookup "app_initialized")
  let b ← asBool (data.lookup "app_enabled")
  let c ← asBool (data.lookup "plugins_good")
  let d ← asBool (data.lookup "app_good")
  let e ← asBool (data.lookup "online")
  let f ← asBool (data.lookup "good")
  pure ⟨a, b, c, d, e, f⟩

/-- `GetStatus` (lines 305-334): nil when no api url is configured, when the
http request fails, when the body does not decode, or when `retcode != 0`;
otherwise the data is reflectively asserted into the six flags — a failed
assertion is a runtime panic, not a nil return. -/
def getStatus (apiURL : String) (res : HTTPGetResult) : GetStatusOutcome :=
  if apiURL == "" then GetStatusOutcome.nil
  else match res with
  | HTTPGetResult.httpError => GetStatusOutcome.nil
  | HTTPGetResult.decodeError => GetStatusOutcome.nil
  | HTTPGetResult.ok response =>
    if response.retcode != 0 then GetStatusOutcome.nil
    else match response.data with
      | JVal.obj data =>
        match getStatusFields data with
        | some status => GetStatusOutcome.ok status
        | none => GetStatusOutcome.panicked
      | _ => GetStatusOutcome.panicked

/-- Modelled from the spec: the up-front validating decoder the spec's words
describe (a structured decode step that checks presence and boolean type of
every expected field and returns a typed result or an explicit failure),
used as the specification side of the `getStatus` characterization. -/
def decodeStatusSpec (v : JVal) : Option CQTypeGetStatus :=
  match v with
  | JVal.obj data =>
    match asBool (data.lookup "app_initialized"), asBool (data.lookup "app_enabled"),
          asBool (data.lookup "plugins_good"), asBool (data.lookup "app_good"),
          asBool (data.lookup "online"), asBool (data.lookup "good") with
    | some a, some b, some c, some d, some e, some f => some ⟨a, b, c, d, e, f⟩
    | _, _, _, _, _, _ => none
  | _ => none

/-! ## Concrete plugins for counterexamples and witnesses -/

/-- A filter accepting every event, used by the reserved-key plugin below. -/
def pCexFilter : Unit → Bool := fun _ => true

/-- A plugin that declares both a filter and a handler under the reserved
key `noFilterKey`, plus one unpaired handler. -/
def pCex : Plugin Unit String :=
  ⟨"P", true, [(noFilterKey, pCexFilter)], [(noFilterKey, "h0"), ("u", "hu")]⟩

/-- The identity filter on boolean events. -/
def pWFilter : Bool → Bool := fun b => b

/-- A plugin with one properly paired filter/handler under key `cmd`. -/
def pW : Plugin Bool Nat := ⟨"A", true, [("cmd", pWFilter)], [("cmd", 7)]⟩

/-- A plugin with one unpaired handler and no filters. -/
def pW3 : Plugin Bool Nat := ⟨"B", true, [], [("log", 9)]⟩

/-- A filter rejecting every event. -/
def pW6Filter : Unit → Bool := fun _ => false

/-- A plugin with a filter under `orphan` and no handler at all. -/
def pW6 : Plugin Unit String := ⟨"C", true, [("orphan", pW6Filter)], []⟩

/-- A plugin whose `Load()` fails. -/
def pFail : Plugin Unit String := ⟨"F", false, [], []⟩

/-- A plugin whose `Load()` succeeds, with one unpaired handler. -/
def pOk : Plugin Unit String := ⟨"Q", true, [], [("u2", "hu2")]⟩

/-! ## Helper lemmas on association lists -/

section AssocLemmas

variable {κ α : Type} [BEq κ] [LawfulBEq κ]

theorem lookup_cons_ne {l : List (κ × α)} {k : κ} (a : κ × α)
    (h : (k == a.1) = false) : (a :: l).lookup k = l.lookup k := by
  rw [show a = (a.1, a.2) from rfl, List.lookup_cons, h]

theorem lookup_cons_self {l : List (κ × α)} {k : κ} (a : κ × α)
    (h : (k == a.1) = true) : (a :: l).lookup k = some a.2 := by
  rw [show a = (a.1, a.2) from rfl, List.lookup_cons, h]

theorem lookup_mem {l : List (κ × α)} {k : κ} {v : α}
    (h : l.lookup k = some v) : (k, v) ∈ l := by
  induction l with
  | nil => simp [List.lookup] at h
  | cons a l ih =>
    rcases hk : k == a.1 with _ | _
    · rw [show a = (a.1, a.2) from rfl, List.lookup_cons, hk] at h
      exact List.mem_cons_of_mem _ (ih h)
    · rw [show a = (a.1, a.2) from rfl, List.lookup_cons, hk] at h
      have hk' : k = a.1 := by simpa using hk
      have hv : a.2 = v := by simpa using h
      subst hk'
      rw [← hv]
      exact List.mem_cons_self _ _

theorem lookup_isSome_of_mem {l : List (κ × α)} {k : κ} {v : α}
    (h : (k, v) ∈ l) : (l.lookup k).isSome = true := by
  induction l with
  | nil => simp at h
  | cons a l ih =>
    rw [show a = (a.1, a.2) from rfl, List.lookup_cons]
    rcases hk : k == a.1 with _ | _
    · rcases List.mem_cons.mp h with h1 | h2
      · exfalso
        have : k = a.1 := congrArg Prod.fst h1
        simp [this] at hk
      · simpa using ih h2
    · simp

theorem lookup_eq_none_of_not_mem {l : List (κ × α)} {k : κ}
    (h : ∀ v, (k, v) ∉ l) : l.lookup k = none := by
  rcases hl : l.lookup k with _ | v
  · rfl
  · exact absurd (lookup_mem hl) (h v)

/-- Keys unique and `(k, v)` a member: the lookup finds exactly `v`. -/
theorem lookup_of_nodup_mem {l : List (κ × α)} {k : κ} {v : α}
    (hnodup : (l.map (·.1)).Nodup) (hmem : (k, v) ∈ l) : l.lookup k = some v := by
  induction l with
  | nil => simp at hmem
  | cons a l ih =>
    simp only [List.map_cons, List.nodup_cons] at hnodup
    rw [show a = (a.1, a.2) from rfl, List.lookup_cons]
    rcases List.mem_cons.mp hmem with h1 | h2
    · have hk : k = a.1 := congrArg Prod.fst h1
      have hv : v = a.2 := congrArg Prod.snd h1
      subst hk
      subst hv
      simp
    · rcases hk : k == a.1 with _ | _
      · simpa using ih hnodup.2 h2
      · exfalso
        have hk' : k = a.1 := by simpa using hk
        subst hk'
        exact hnodup.1 (List.mem_map.mpr ⟨(a.1, v), h2, rfl⟩)

/-- With unique keys, two members under the same key carry the same value. -/
theorem value_unique_of_nodup {l : List (κ × α)} {k : κ} {v v' : α}
    (hnodup : (l.map (·.1)).Nodup) (h1 : (k, v) ∈ l) (h2 : (k, v') ∈ l) : v = v' := by
  have e1 := lookup_of_nodup_mem hnodup h1
  have e2 := lookup_of_nodup_mem hnodup h2
  rw [e1] at e2
  exact (Option.some.injEq _ _).mp e2

theorem lookup_append_right {l₁ : List (κ × α)} (l₂ : List (κ × α)) (k : κ)
    (h : l₁.lookup k = none) : (l₁ ++ l₂).lookup k = l₂.lookup k := by
  induction l₁ with
  | nil => rfl
  | cons a l ih =>
    rw [show a = (a.1, a.2) from rfl] at h ⊢
    rw [List.cons_append, List.lookup_cons]
    rw [List.lookup_cons] at h
    rcases hk : k == a.1 with _ | _
    · rw [hk] at h
      simpa using ih h
    · rw [hk] at h
      simp at h

theorem lookup_append_left {l₁ : List (κ × α)} (l₂ : List (κ × α)) {k : κ} {v : α}
    (h : l₁.lookup k = some v) : (l₁ ++ l₂).lookup k = some v := by
  induction l₁ with
  | nil => simp [List.lookup] at h
  | cons a l ih =>
    rw [show a = (a.1, a.2) from rfl] at h ⊢
    rw [List.cons_append, List.lookup_cons]
    rw [List.lookup_cons] at h
    rcases hk : k == a.1 with _ | _
    · rw [hk] at h
      simpa using ih h
    · rw [hk] at h
      simpa using h

/-- Looking up in a filtered list when the predicate only inspects the key. -/
theorem lookup_filter_key (l : List (κ × α)) (P : κ → Bool) (k : κ) :
    (l.filter (fun q => P q.1)).lookup k = if P k then l.lookup k else none := by
  induction l with
  | nil => simp
  | cons a l ih =>
    rcases hk : k == a.1 with _ | _
    · cases hP : P a.1
      · rw [List.filter_cons_of_neg (by simpa using hP), ih, lookup_cons_ne a hk]
      · rw [List.filter_cons_of_pos (by simpa using hP), lookup_cons_ne a hk, ih,
          lookup_cons_ne a hk]
    · have hk' : k = a.1 := by simpa using hk
      cases hP : P a.1
      · rw [List.filter_cons_of_neg (by simpa using hP), ih, hk', hP]
        simp
      · have hPk : P k = true := by rw [hk']; exact hP
        rw [List.filter_cons_of_pos (by simpa using hP), lookup_cons_self a hk, hPk,
          if_pos rfl, lookup_cons_self a hk]

/-- Looking up in a key-preserving `filterMap` whose data only depends on
the key. -/
theorem lookup_filterMap_key {β γ : Type} (l : List (κ × α)) (g : κ → Option γ)
    (m : γ → β) (k : κ) :
    (l.filterMap (fun q => (g q.1).map (fun v => (q.1, m v)))).lookup k =
      if (l.lookup k).isSome then (g k).map m else none := by
  induction l with
  | nil => simp
  | cons a l ih =>
    rw [show a = (a.1, a.2) from rfl, List.filterMap_cons]
    rcases hga : g a.1 with _ | w
    · simp only [hga, Option.map_none']
      rw [ih, List.lookup_cons]
      rcases hk : k == a.1 with _ | _
      · rfl
      · have hk' : k = a.1 := by simpa using hk
        subst hk'
        rw [hga]
        simp
    · simp only [hga, Option.map_some']
      rw [List.lookup_cons, List.lookup_cons]
      rcases hk : k == a.1 with _ | _
      · rw [ih]
      · have hk' : k = a.1 := by simpa using hk
        subst hk'
        rw [hga]
        simp

end AssocLemmas

/-- `deqEcho` removes every occurrence of the id. -/
theorem deqEcho_lookup_self (q : EchoQueue) (id : Int) :
    (deqEcho q id).lookup id = none := by
  apply lookup_eq_none_of_not_mem
  intro v hv
  have h := List.mem_filter.mp hv
  simp at h

/-! ## Helper lemmas: setKey and the entry maps -/

theorem setKey_lookup_self {α : Type} (l : List (String × α)) (k : String) (v : α) :
    (setKey l k v).lookup k = some v := by
  rw [setKey]
  rw [lookup_append_right]
  · simp [List.lookup_cons]
  · rw [lookup_filter_key l (fun s => !(s == k)) k]
    simp

theorem setKey_lookup_ne {α : Type} (l : List (String × α)) (k k' : String) (v : α)
    (hne : k' ≠ k) : (setKey l k v).lookup k' = l.lookup k' := by
  rw [setKey]
  have hfilter : (l.filter (fun q => !(q.1 == k))).lookup k' = l.lookup k' := by
    rw [lookup_filter_key l (fun s => !(s == k)) k']
    simp [hne]
  rcases hl : l.lookup k' with _ | w
  · rw [lookup_append_right _ _ (by rw [hfilter, hl])]
    exact lookup_cons_ne (k, v) (by simpa using hne)
  · rw [lookup_append_left _ (show (l.filter (fun q => !(q.1 == k))).lookup k' = some w by
      rw [hfilter, hl])]

theorem mkEntry_keys (p : Plugin E H) :
    (mkEntry p).keys = (pairedFilters p).map (·.1) := rfl

theorem mkEntry_fitlers (p : Plugin E H) :
    (mkEntry p).fitlers = pairedFilters p := rfl

theorem mkEntry_handlers_noFilterKey (p : Plugin E H) :
    (mkEntry p).handlers.lookup noFilterKey
      = some (HVal.catchAll (noFilterHanlers p)) :=
  setKey_lookup_self _ _ _

theorem mkEntry_handlers_ne (p : Plugin E H) {k : String} (hk : k ≠ noFilterKey) :
    (mkEntry p).handlers.lookup k =
      if ((pairedFilters p).lookup k).isSome
        then (p.handlers.lookup k).map HVal.plain else none := by
  have h1 : (mkEntry p).handlers.lookup k = (pairedHandlers p).lookup k :=
    setKey_lookup_ne _ _ _ _ hk
  rw [h1, pairedHandlers]
  exact lookup_filterMap_key (pairedFilters p) (fun s => p.handlers.lookup s) HVal.plain k

theorem pairedFilters_lookup (p : Plugin E H) (k : String) :
    (pairedFilters p).lookup k =
      if (p.handlers.lookup k).isSome then p.filters.lookup k else none :=
  lookup_filter_key p.filters (fun s => (p.handlers.lookup s).isSome) k

theorem hasFilterFn_iff (p : Plugin E H) (k : String) :
    hasFilterFn p k = true ↔
      (p.filters.lookup k).isSome = true ∧ (p.handlers.lookup k).isSome = true := by
  rw [hasFilterFn, List.any_eq_true]
  constructor
  · rintro ⟨kf, hmem, hcond⟩
    rw [Bool.and_eq_true] at hcond
    have hk : kf.1 = k := by simpa using hcond.1
    subst hk
    exact ⟨lookup_isSome_of_mem (show (kf.1, kf.2) ∈ p.filters from hmem), hcond.2⟩
  · rintro ⟨hf, hh⟩
    rcases hfs : p.filters.lookup k with _ | f
    · rw [hfs] at hf
      simp at hf
    · exact ⟨(k, f), lookup_mem hfs, by simp [hh]⟩

theorem mem_keys_iff (p : Plugin E H) (k : String) :
    k ∈ (mkEntry p).keys ↔ hasFilterFn p k = true := by
  rw [mkEntry_keys]
  constructor
  · intro hk
    rcases List.mem_map.mp hk with ⟨kf, hmem, hfst⟩
    have hmem' := List.mem_filter.mp hmem
    rw [hasFilterFn, List.any_eq_true]
    refine ⟨kf, hmem'.1, ?_⟩
    have := hmem'.2
    simp only [Bool.and_eq_true]
    constructor
    · simpa using hfst
    · simpa using this
  · intro hk
    rw [hasFilterFn, List.any_eq_true] at hk
    rcases hk with ⟨kf, hmem, hcond⟩
    rw [Bool.and_eq_true] at hcond
    have hfst : kf.1 = k := by simpa using hcond.1
    exact List.mem_map.mpr ⟨kf, List.mem_filter.mpr ⟨hmem, hcond.2⟩, hfst⟩

theorem noFilterHanlers_key (p : Plugin E H) {k : String} {h : H}
    (hm : (k, h) ∈ noFilterHanlers p) : hasFilterFn p k = false := by
  have h2 := (List.mem_filter.mp hm).2
  simpa using h2

theorem mem_noFilterHanlers (p : Plugin E H) {k : String} {h : H}
    (hmem : (k, h) ∈ p.handlers) (hnf : hasFilterFn p k = false) :
    (k, h) ∈ noFilterHanlers p :=
  List.mem_filter.mpr ⟨hmem, by simp [hnf]⟩

theorem keys_nodup (p : Plugin E H) (hndF : (p.filters.map (·.1)).Nodup) :
    (mkEntry p).keys.Nodup := by
  rw [mkEntry_keys]
  exact ((List.filter_sublist p.filters).map (·.1)).nodup hndF

/-! ## Helper lemmas: counting invocations -/

theorem countOcc_nil [DecidableEq H] (k : String) (h : H) :
    countOcc ([] : List (String × H)) k h = 0 := rfl

theorem countOcc_cons [DecidableEq H] (a : String × H) (l : List (String × H))
    (k : String) (h : H) :
    countOcc (a :: l) k h = (if a = (k, h) then 1 else 0) + countOcc l k h := by
  by_cases ha : a = (k, h)
  · rw [countOcc, List.filter_cons_of_pos (by simpa using ha), if_pos ha]
    rw [List.length_cons, countOcc]
    omega
  · rw [countOcc, List.filter_cons_of_neg (by simpa using ha), if_neg ha]
    rw [countOcc]
    omega

theorem countOcc_append [DecidableEq H] (l₁ l₂ : List (String × H)) (k : String) (h : H) :
    countOcc (l₁ ++ l₂) k h = countOcc l₁ k h + countOcc l₂ k h := by
  simp [countOcc, List.filter_append]

theorem countOcc_flatMap [DecidableEq H] {α : Type} (l : List α)
    (g : α → List (String × H)) (k : String) (h : H) :
    countOcc (l.flatMap g) k h = (l.map (fun x => countOcc (g x) k h)).sum := by
  induction l with
  | nil => rfl
  | cons a l ih => simp [List.flatMap_cons, countOcc_append, ih]

theorem countOcc_eq_zero_of_not_mem [DecidableEq H] {l : List (String × H)}
    {k : String} {h : H} (hnm : (k, h) ∉ l) : countOcc l k h = 0 := by
  induction l with
  | nil => rfl
  | cons a l ih =>
    rw [countOcc_cons, if_neg (fun hc => hnm (by rw [← hc]; exact List.mem_cons_self a l))]
    rw [ih (fun hc => hnm (List.mem_cons_of_mem a hc))]

theorem countOcc_eq_one_of_nodup [DecidableEq H] {l : List (String × H)}
    {k : String} {h : H}
    (hnodup : (l.map (·.1)).Nodup) (hm : (k, h) ∈ l) : countOcc l k h = 1 := by
  induction l with
  | nil => simp at hm
  | cons a l ih =>
    simp only [List.map_cons, List.nodup_cons] at hnodup
    rw [countOcc_cons]
    rcases List.mem_cons.mp hm with h1 | hmem
    · rw [if_pos h1.symm]
      have hzero : countOcc l k h = 0 := by
        apply countOcc_eq_zero_of_not_mem
        intro hc
        apply hnodup.1
        have ha1 : a.1 = k := (congrArg Prod.fst h1).symm
        rw [ha1]
        exact List.mem_map.mpr ⟨(k, h), hc, rfl⟩
      rw [hzero]
    · have ha : ¬(a = (k, h)) := by
        intro hc
        apply hnodup.1
        have ha1 : a.1 = k := congrArg Prod.fst hc
        rw [ha1]
        exact List.mem_map.mpr ⟨(k, h), hmem, rfl⟩
      rw [if_neg ha, ih hnodup.2 hmem]

theorem sum_map_eq_of_single {α : Type} (l : List α) (f : α → Nat) (a : α)
    (hnodup : l.Nodup) (ha : a ∈ l) (hzero : ∀ b ∈ l, b ≠ a → f b = 0) :
    (l.map f).sum = f a := by
  induction l with
  | nil => simp at ha
  | cons x l ih =>
    simp only [List.map_cons, List.sum_cons]
    rcases List.mem_cons.mp ha with rfl | hmem
    · have hrest : (l.map f).sum = 0 := by
        apply List.sum_eq_zero
        intro n hn
        rcases List.mem_map.mp hn with ⟨b, hb, rfl⟩
        refine hzero b (List.mem_cons_of_mem _ hb) ?_
        intro hba
        exact (List.nodup_cons.mp hnodup).1 (hba ▸ hb)
      rw [hrest]
      omega
    · have hx : f x = 0 := by
        refine hzero x (List.mem_cons_self _ _) ?_
        intro hxa
        exact (List.nodup_cons.mp hnodup).1 (hxa ▸ hmem)
      rw [hx, ih (List.nodup_cons.mp hnodup).2 hmem
        (fun b hb => hzero b (List.mem_cons_of_mem _ hb))]
      omega

theorem nodup_map_inj {α β : Type} {l : List α} {f : α → β}
    (hnodup : (l.map f).Nodup) {a b : α} (ha : a ∈ l) (hb : b ∈ l)
    (hf : f a = f b) : a = b := by
  induction l with
  | nil => simp at ha
  | cons x l ih =>
    simp only [List.map_cons, List.nodup_cons] at hnodup
    rcases List.mem_cons.mp ha with rfl | ha'
    · rcases List.mem_cons.mp hb with rfl | hb'
      · rfl
      · exact absurd (List.mem_map.mpr ⟨b, hb', hf.symm⟩) hnodup.1
    · rcases List.mem_cons.mp hb with rfl | hb'
      · exact absurd (List.mem_map.mpr ⟨a, ha', hf⟩) hnodup.1
      · exact ih hnodup.2 ha' hb'

/-! ## Helper lemmas: dispatch counts -/

theorem dispatchEntry_mkEntry (p : Plugin E H) (e : E) :
    dispatchEntry (mkEntry p) e
      = noFilterHanlers p ++ (mkEntry p).keys.flatMap (keyedUnit (mkEntry p) e) := by
  rw [dispatchEntry, mkEntry_handlers_noFilterKey]
  rfl

theorem countOcc_noFilterHanlers_zero [DecidableEq H] (p : Plugin E H)
    (K : String) (h : H) (hKp : hasFilterFn p K = true) :
    countOcc (noFilterHanlers p) K h = 0 := by
  apply countOcc_eq_zero_of_not_mem
  intro hm
  rw [noFilterHanlers_key p hm] at hKp
  exact Bool.false_ne_true hKp

theorem countOcc_keyedUnit_ne [DecidableEq H] (p : Plugin E H) (e : E)
    (k K : String) (h : H) (hne : k ≠ K) (hnf : k ≠ noFilterKey) :
    countOcc (keyedUnit (mkEntry p) e k) K h = 0 := by
  rw [keyedUnit, mkEntry_handlers_ne p hnf]
  by_cases hcond : ((pairedFilters p).lookup k).isSome = true
  · rw [if_pos hcond]
    rcases hph : p.handlers.lookup k with _ | w
    · simp only [Option.map_none']
      rcases (mkEntry p).fitlers.lookup k with _ | f
      · rfl
      · rfl
    · simp only [Option.map_some']
      rcases (mkEntry p).fitlers.lookup k with _ | f
      · rfl
      · show countOcc (if f e = true then runHVal k (HVal.plain w) else []) K h = 0
        by_cases hfe : f e = true
        · rw [if_pos hfe]
          rw [show runHVal k (HVal.plain w) = [(k, w)] from rfl, countOcc_cons, countOcc_nil,
            if_neg (fun hc => hne (congrArg Prod.fst hc))]
        · rw [if_neg hfe]
          rfl
  · rw [if_neg hcond]
    rcases (mkEntry p).fitlers.lookup k with _ | f
    · rfl
    · rfl

theorem countOcc_keyedUnit_noFilterKey [DecidableEq H] (p : Plugin E H) (e : E)
    (K : String) (h : H) (hKp : hasFilterFn p K = true) :
    countOcc (keyedUnit (mkEntry p) e noFilterKey) K h = 0 := by
  rw [keyedUnit, mkEntry_handlers_noFilterKey]
  rcases (mkEntry p).fitlers.lookup noFilterKey with _ | f
  · rfl
  · show countOcc
        (if f e = true then runHVal noFilterKey (HVal.catchAll (noFilterHanlers p)) else [])
        K h = 0
    by_cases hfe : f e = true
    · rw [if_pos hfe]
      exact countOcc_noFilterHanlers_zero p K h hKp
    · rw [if_neg hfe]
      rfl

theorem keyedUnit_self [DecidableEq H] (p : Plugin E H) (e : E) (K : String)
    (f : E → Bool) (h : H)
    (hKnf : K ≠ noFilterKey)
    (hf : p.filters.lookup K = some f)
    (hh : p.handlers.lookup K = some h) :
    countOcc (keyedUnit (mkEntry p) e K) K h = if f e then 1 else 0 := by
  have hpf : (pairedFilters p).lookup K = some f := by
    rw [pairedFilters_lookup, hh]
    simp [hf]
  have hfit : (mkEntry p).fitlers.lookup K = some f := by
    rw [mkEntry_fitlers]
    exact hpf
  have hhnd : (mkEntry p).handlers.lookup K = some (HVal.plain h) := by
    rw [mkEntry_handlers_ne p hKnf, hpf]
    simp [hh]
  rw [keyedUnit, hfit, hhnd]
  show countOcc (if f e = true then runHVal K (HVal.plain h) else []) K h
    = if f e = true then 1 else 0
  by_cases hfe : f e = true
  · rw [if_pos hfe, if_pos hfe]
    rw [show runHVal K (HVal.plain h) = [(K, h)] from rfl, countOcc_cons, countOcc_nil,
      if_pos rfl]
  · rw [if_neg hfe, if_neg hfe]
    rfl

/-! ## Claim theorems: registration and dispatch -/

/-- C2 (amended): for every key `K` other than the reserved catch-all key
that is present in both a plugin's filter and handler maps, the handler the
plugin declared under `K` is invoked by a dispatch exactly when the filter
under `K` accepts the event — once when it accepts, never when it rejects.
(At the reserved key itself the declared handler is overwritten by the
catch-all, see the counterexample and C10.) -/
theorem keyed_handler_iff_filter [DecidableEq H] (p : Plugin E H) (e : E) (K : String)
    (f : E → Bool) (h : H)
    (hKnf : K ≠ noFilterKey)
    (hf : p.filters.lookup K = some f)
    (hh : p.handlers.lookup K = some h)
    (hndF : (p.filters.map (·.1)).Nodup) :
    countOcc (dispatchEntry (mkEntry p) e) K h = if f e then 1 else 0 := by
  have hKp : hasFilterFn p K = true :=
    (hasFilterFn_iff p K).mpr ⟨by rw [hf]; rfl, by rw [hh]; rfl⟩
  have hmemK : K ∈ (mkEntry p).keys := (mem_keys_iff p K).mpr hKp
  have hzero : ∀ b ∈ (mkEntry p).keys, b ≠ K →
      countOcc (keyedUnit (mkEntry p) e b) K h = 0 := by
    intro b hb hbK
    by_cases hbnf : b = noFilterKey
    · rw [hbnf]
      exact countOcc_keyedUnit_noFilterKey p e K h hKp
    · exact countOcc_keyedUnit_ne p e b K h hbK hbnf
  rw [dispatchEntry_mkEntry, countOcc_append,
    countOcc_noFilterHanlers_zero p K h hKp, countOcc_flatMap,
    sum_map_eq_of_single _ _ K (keys_nodup p hndF) hmemK hzero,
    keyedUnit_self p e K f h hKnf hf hh, Nat.zero_add]

/-- Counterexample to C2 as stated: key `noFilterKey` is present in both of
`pCex`'s maps and its filter accepts the event, yet the handler the plugin
declared under it is never invoked (registration overwrote it with the
catch-all). -/
theorem keyed_handler_iff_filter_cex :
    pCex.filters.lookup noFilterKey = some pCexFilter
    ∧ pCex.handlers.lookup noFilterKey = some "h0"
    ∧ pCexFilter () = true
    ∧ countOcc (dispatchEntry (mkEntry pCex) ()) noFilterKey "h0" = 0 :=
  ⟨rfl, by decide, rfl, by decide⟩

/-- Witness for `keyed_handler_iff_filter` at a concrete plugin: the paired
handler runs exactly once on an accepted event and never on a rejected one. -/
theorem keyed_handler_iff_filter_witness :
    countOcc (dispatchEntry (mkEntry pW) true) "cmd" 7 = 1
    ∧ countOcc (dispatchEntry (mkEntry pW) false) "cmd" 7 = 0 := by
  constructor
  · have h := keyed_handler_iff_filter pW true "cmd" pWFilter 7 (by decide) rfl rfl (by decide)
    simpa [pWFilter] using h
  · have h := keyed_handler_iff_filter pW false "cmd" pWFilter 7 (by decide) rfl rfl (by decide)
    simpa [pWFilter] using h

/-- C3 (amended): a handler whose key has no paired filter lands in the
catch-all and is invoked exactly once per dispatched event, provided the
plugin does not declare a filter/handler pair under the reserved
`noFilterKey` (in that case an accepted event runs the catch-all twice, see
the counterexample). -/
theorem unpaired_handler_once [DecidableEq H] (p : Plugin E H) (e : E) (K : String) (h : H)
    (hh : p.handlers.lookup K = some h)
    (hK : hasFilterFn p K = false)
    (hres : hasFilterFn p noFilterKey = false)
    (hndH : (p.handlers.map (·.1)).Nodup) :
    (K, h) ∈ noFilterHanlers p
    ∧ countOcc (dispatchEntry (mkEntry p) e) K h = 1 := by
  have hmem : (K, h) ∈ noFilterHanlers p := mem_noFilterHanlers p (lookup_mem hh) hK
  refine ⟨hmem, ?_⟩
  have hnfnodup : ((noFilterHanlers p).map (·.1)).Nodup :=
    ((List.filter_sublist p.handlers).map (·.1)).nodup hndH
  have h1 : countOcc (noFilterHanlers p) K h = 1 := countOcc_eq_one_of_nodup hnfnodup hmem
  have h0 : ((mkEntry p).keys.map
      (fun x => countOcc (keyedUnit (mkEntry p) e x) K h)).sum = 0 := by
    apply List.sum_eq_zero
    intro n hn
    rcases List.mem_map.mp hn with ⟨b, hb, rfl⟩
    have hbfilter : hasFilterFn p b = true := (mem_keys_iff p b).mp hb
    have hbK : b ≠ K := by
      intro hc
      rw [hc] at hbfilter
      rw [hK] at hbfilter
      simp at hbfilter
    have hbnf : b ≠ noFilterKey := by
      intro hc
      rw [hc] at hbfilter
      rw [hres] at hbfilter
      simp at hbfilter
    exact countOcc_keyedUnit_ne p e b K h hbK hbnf
  rw [dispatchEntry_mkEntry, countOcc_append, countOcc_flatMap, h1, h0]

/-- Counterexample to C3 as stated: `pCex` pairs a filter with a handler
under the reserved key, so the unpaired handler `("u", "hu")` is invoked
twice for an accepted event (once by the unconditional catch-all run, once
again when the keyed unit for the reserved key runs the overwritten
handler), not exactly once. -/
theorem unpaired_handler_once_cex :
    hasFilterFn pCex "u" = false
    ∧ pCex.handlers.lookup "u" = some "hu"
    ∧ countOcc (dispatchEntry (mkEntry pCex) ()) "u" "hu" = 2 :=
  ⟨by decide, by decide, by decide⟩

/-- Witness for `unpaired_handler_once` at a concrete plugin. -/
theorem unpaired_handler_once_witness :
    ("log", 9) ∈ noFilterHanlers pW3
    ∧ countOcc (dispatchEntry (mkEntry pW3) true) "log" 9 = 1 :=
  unpaired_handler_once pW3 true "log" 9 rfl (by decide) (by decide) (by decide)

/-- C10: if a plugin declares a filter and a handler both under the reserved
key, registration pairs them (the key enters the key list) but then stores
the synthesized catch-all under that key, so on an event the filter accepts,
the keyed dispatch unit runs the catch-all (all unpaired handlers) and the
plugin's declared handler is never invoked. -/
theorem reserved_key_catchAll [DecidableEq H] (p : Plugin E H) (e : E)
    (f : E → Bool) (h : H)
    (hf : p.filters.lookup noFilterKey = some f)
    (hh : p.handlers.lookup noFilterKey = some h)
    (hacc : f e = true) :
    (mkEntry p).handlers.lookup noFilterKey = some (HVal.catchAll (noFilterHanlers p))
    ∧ noFilterKey ∈ (mkEntry p).keys
    ∧ keyedUnit (mkEntry p) e noFilterKey = noFilterHanlers p
    ∧ countOcc (dispatchEntry (mkEntry p) e) noFilterKey h = 0 := by
  have hKp : hasFilterFn p noFilterKey = true :=
    (hasFilterFn_iff p noFilterKey).mpr ⟨by rw [hf]; rfl, by rw [hh]; rfl⟩
  have hfit : (mkEntry p).fitlers.lookup noFilterKey = some f := by
    rw [mkEntry_fitlers, pairedFilters_lookup, hh]
    simp [hf]
  refine ⟨mkEntry_handlers_noFilterKey p, (mem_keys_iff p noFilterKey).mpr hKp, ?_, ?_⟩
  · rw [keyedUnit, hfit, mkEntry_handlers_noFilterKey]
    show (if f e = true then runHVal noFilterKey (HVal.catchAll (noFilterHanlers p)) else [])
      = noFilterHanlers p
    rw [if_pos hacc]
    rfl
  · have h0 : ((mkEntry p).keys.map
        (fun x => countOcc (keyedUnit (mkEntry p) e x) noFilterKey h)).sum = 0 := by
      apply List.sum_eq_zero
      intro n hn
      rcases List.mem_map.mp hn with ⟨b, hb, rfl⟩
      by_cases hbnf : b = noFilterKey
      · rw [hbnf]
        exact countOcc_keyedUnit_noFilterKey p e noFilterKey h hKp
      · exact countOcc_keyedUnit_ne p e b noFilterKey h hbnf hbnf
    rw [dispatchEntry_mkEntry, countOcc_append,
      countOcc_noFilterHanlers_zero p noFilterKey h hKp, countOcc_flatMap, h0]

/-- Witness for `reserved_key_catchAll` at the concrete plugin `pCex`. -/
theorem reserved_key_catchAll_witness :
    (mkEntry pCex).handlers.lookup noFilterKey = some (HVal.catchAll (noFilterHanlers pCex))
    ∧ noFilterKey ∈ (mkEntry pCex).keys
    ∧ keyedUnit (mkEntry pCex) () noFilterKey = noFilterHanlers pCex
    ∧ countOcc (dispatchEntry (mkEntry pCex) ()) noFilterKey "h0" = 0 :=
  reserved_key_catchAll pCex () pCexFilter "h0" rfl rfl rfl

/-- C6: a filter key with no handler under the same key is warned about and
dropped: it enters neither the entry's key list nor its filter map, and
since dispatch evaluates filters only for keys in the key list, the filter
under that key is never evaluated for any event. -/
theorem unused_filter_key_dropped (p : Plugin E H) (K : String) (f : E → Bool)
    (hf : p.filters.lookup K = some f)
    (hh : p.handlers.lookup K = none) :
    K ∈ registrationWarnings p
    ∧ K ∉ (mkEntry p).keys
    ∧ (mkEntry p).fitlers.lookup K = none
    ∧ K ∉ dispatchFilterEvals (mkEntry p) := by
  have hw : K ∈ registrationWarnings p := by
    apply List.mem_map.mpr
    refine ⟨(K, f), List.mem_filter.mpr ⟨lookup_mem hf, ?_⟩, rfl⟩
    simp [hh]
  have hnk : K ∉ (mkEntry p).keys := by
    intro hc
    have hcf := (mem_keys_iff p K).mp hc
    rw [hasFilterFn_iff] at hcf
    rw [hh] at hcf
    simp at hcf
  refine ⟨hw, hnk, ?_, hnk⟩
  rw [mkEntry_fitlers, pairedFilters_lookup, hh]
  simp

/-- Witness for `unused_filter_key_dropped` at a concrete plugin. -/
theorem unused_filter_key_dropped_witness :
    "orphan" ∈ registrationWarnings pW6
    ∧ "orphan" ∉ (mkEntry pW6).keys
    ∧ (mkEntry pW6).fitlers.lookup "orphan" = none
    ∧ "orphan" ∉ dispatchFilterEvals (mkEntry pW6) :=
  unused_filter_key_dropped pW6 "orphan" pW6Filter rfl rfl

/-- C7: a load failure of plugin `P` only excludes `P`: its name is logged,
it gets no registry entry, while every plugin `Q` that loads gets its entry
installed under its name and all of its dispatch invocations appear in the
full fan-out.  The registration function is total — no error reaches the
caller. -/
theorem load_failure_isolated (plugins : List (Plugin E H)) (P Q : Plugin E H) (e : E)
    (hP : P ∈ plugins) (hPfail : P.loadOk = false)
    (hQ : Q ∈ plugins) (hQok : Q.loadOk = true)
    (hnames : (plugins.map (·.name)).Nodup) :
    P.name ∈ loadErrors plugins
    ∧ (Q.name, mkEntry Q) ∈ registerAllPlugins plugins
    ∧ (registerAllPlugins plugins).lookup Q.name = some (mkEntry Q)
    ∧ P.name ∉ (registerAllPlugins plugins).map (·.1)
    ∧ ∀ inv ∈ dispatchEntry (mkEntry Q) e,
        (Q.name, inv) ∈ dispatchAll (registerAllPlugins plugins) e := by
  have hregmem : (Q.name, mkEntry Q) ∈ registerAllPlugins plugins := by
    apply List.mem_map.mpr
    exact ⟨Q, List.mem_filter.mpr ⟨hQ, hQok⟩, rfl⟩
  have hfnames : ((plugins.filter (fun p => p.loadOk)).map (·.name)).Nodup :=
    ((List.filter_sublist plugins).map (·.name)).nodup hnames
  have hregnames : ((registerAllPlugins plugins).map (·.1)).Nodup := by
    rw [registerAllPlugins, List.map_map]
    exact hfnames
  refine ⟨?_, hregmem, ?_, ?_, ?_⟩
  · apply List.mem_map.mpr
    exact ⟨P, List.mem_filter.mpr ⟨hP, by simp [hPfail]⟩, rfl⟩
  · exact lookup_of_nodup_mem hregnames hregmem
  · intro hc
    rcases List.mem_map.mp hc with ⟨ne, hne, hfst⟩
    rcases List.mem_map.mp hne with ⟨p', hp', rfl⟩
    have hp'' := List.mem_filter.mp hp'
    have hload : p'.loadOk = true := hp''.2
    have hpe : p' = P := nodup_map_inj hnames hp''.1 hP hfst
    rw [hpe] at hload
    rw [hPfail] at hload
    simp at hload
  · intro inv hinv
    apply List.mem_flatMap.mpr
    refine ⟨(Q.name, mkEntry Q), hregmem, ?_⟩
    apply List.mem_map.mpr
    exact ⟨inv, hinv, rfl⟩

/-- Witness for `load_failure_isolated` at two concrete plugins. -/
theorem load_failure_isolated_witness :
    "F" ∈ loadErrors [pFail, pOk]
    ∧ (registerAllPlugins [pFail, pOk]).lookup "Q" = some (mkEntry pOk)
    ∧ "F" ∉ (registerAllPlugins [pFail, pOk]).map (·.1)
    ∧ ("Q", ("u2", "hu2")) ∈ dispatchAll (registerAllPlugins [pFail, pOk]) () := by
  have h := load_failure_isolated [pFail, pOk] pFail pOk ()
    (List.mem_cons_self _ _) rfl
    (List.mem_cons_of_mem _ (List.mem_cons_self _ _)) rfl
    (by decide)
  exact ⟨h.1, h.2.2.1, h.2.2.2.1, h.2.2.2.2 ("u2", "hu2") (by decide)⟩

/-! ## Claim theorems: the status query -/

theorem getStatusFields_eq_spec (data : List (String × JVal)) :
    getStatusFields data = decodeStatusSpec (JVal.obj data) := by
  rcases h1 : asBool (data.lookup "app_initialized") with _ | a <;>
  rcases h2 : asBool (data.lookup "app_enabled") with _ | b <;>
  rcases h3 : asBool (data.lookup "plugins_good") with _ | c <;>
  rcases h4 : asBool (data.lookup "app_good") with _ | d <;>
  rcases h5 : asBool (data.lookup "online") with _ | e <;>
  rcases h6 : asBool (data.lookup "good") with _ | f <;>
  simp [getStatusFields, decodeStatusSpec, h1, h2, h3, h4, h5, h6, Option.bind]

/-- C8 (amended): `GetStatus` yields `nil` exactly on an unset api url, a
transport failure, a JSON decode failure, or a nonzero retcode; on a zero
retcode it yields the six decoded boolean flags when the data validates as
an object carrying all six booleans, and otherwise it raises a runtime
panic — not the `nil` failure indicator. -/
theorem getStatus_outcomes (apiURL : String) (res : HTTPGetResult) :
    getStatus apiURL res =
      if apiURL = "" then GetStatusOutcome.nil
      else match res with
      | HTTPGetResult.httpError => GetStatusOutcome.nil
      | HTTPGetResult.decodeError => GetStatusOutcome.nil
      | HTTPGetResult.ok r =>
        if r.retcode = 0 then
          match decodeStatusSpec r.data with
          | some s => GetStatusOutcome.ok s
          | none => GetStatusOutcome.panicked
        else GetStatusOutcome.nil := by
  rw [getStatus.eq_def]
  by_cases hurl : apiURL = ""
  · rw [if_pos (by simpa using hurl), if_pos hurl]
  · rw [if_neg (by simpa using hurl), if_neg hurl]
    cases res with
    | httpError => rfl
    | decodeError => rfl
    | ok r =>
      show (if (r.retcode != 0) = true then GetStatusOutcome.nil
          else match r.data with
            | JVal.obj data =>
              match getStatusFields data with
              | some status => GetStatusOutcome.ok status
              | none => GetStatusOutcome.panicked
            | _ => GetStatusOutcome.panicked)
        = (if r.retcode = 0 then
            match decodeStatusSpec r.data with
            | some s => GetStatusOutcome.ok s
            | none => GetStatusOutcome.panicked
          else GetStatusOutcome.nil)
      by_cases hrc : r.retcode = 0
      · rw [if_neg (by simp [hrc]), if_pos hrc]
        rcases r.data with _ | b | n | s | xs | fields
        · rfl
        · rfl
        · rfl
        · rfl
        · rfl
        · show (match getStatusFields fields with
              | some status => GetStatusOutcome.ok status
              | none => GetStatusOutcome.panicked) = _
          rw [getStatusFields_eq_spec fields]
      · rw [if_pos (by simpa using hrc), if_neg hrc]

/-- Counterexample to C8 as stated: a reply with retcode 0 whose data is an
empty object is a malformed payload, yet the outcome is a runtime panic
(failed type assertion), not the `nil` failure indicator. -/
theorem getStatus_malformed_not_nil :
    getStatus "http://x" (HTTPGetResult.ok ⟨0, JVal.obj [], 0⟩) = GetStatusOutcome.panicked
    ∧ GetStatusOutcome.panicked ≠ GetStatusOutcome.nil :=
  ⟨rfl, by decide⟩

/-! ## Claim theorems: Correlator -/

/-- C4: tracking an id then resolving the same id removes it from the
pending set entirely; resolving an id whose state flag is `false`
(untracked) leaves the queue unchanged. -/
theorem track_resolve_roundtrip (q q' : EchoQueue) (id : Int)
    (h' : EchoQueue.state q' id = false) :
    EchoQueue.pending (track q id) id = true
    ∧ (resolveEcho (track q id) id).lookup id = none
    ∧ resolveEcho q' id = q' := by
  have hstate : EchoQueue.state (track q id) id = true := by
    simp [EchoQueue.state, track, List.lookup_cons]
  refine ⟨hstate, ?_, ?_⟩
  · simp only [resolveEcho, hstate, if_true]
    exact deqEcho_lookup_self (track q id) id
  · simp [resolveEcho, h']

/-- Witness for `track_resolve_roundtrip` at concrete inputs. -/
theorem track_resolve_roundtrip_witness :
    EchoQueue.pending (track [] 5) 5 = true
    ∧ (resolveEcho (track [] 5) 5).lookup 5 = none
    ∧ resolveEcho [(3, false)] 5 = [(3, false)] :=
  track_resolve_roundtrip [] [(3, false)] 5 (by decide)

/-- C5: an entry pending for longer than `timeForWait` is logged by the
sweep pass, removed from the queue, and resolving it afterwards is a no-op
(it is no longer resolvable). -/
theorem sweep_expires (q : EchoQueue) (id now : Int)
    (hnodup : (q.map (·.1)).Nodup)
    (hpend : q.lookup id = some true)
    (hold : timeForWait < now - id) :
    id ∈ sweepLogged q now
    ∧ (sweepPass q now).lookup id = none
    ∧ resolveEcho (sweepPass q now) id = sweepPass q now := by
  have hmem : (id, true) ∈ q := lookup_mem hpend
  have hlog : id ∈ sweepLogged q now := by
    apply List.mem_map.mpr
    refine ⟨(id, true), List.mem_filter.mpr ⟨hmem, ?_⟩, rfl⟩
    simp [hold]
  have hnone : (sweepPass q now).lookup id = none := by
    apply lookup_eq_none_of_not_mem
    intro v hv
    have hv' := List.mem_filter.mp hv
    have : v = true := value_unique_of_nodup hnodup hv'.1 hmem
    subst this
    simp [hold] at hv'
  refine ⟨hlog, hnone, ?_⟩
  have hfalse : EchoQueue.state (sweepPass q now) id = false := by
    simp [EchoQueue.state, hnone]
  simp [resolveEcho, hfalse]

/-- Witness for `sweep_expires` at concrete inputs. -/
theorem sweep_expires_witness :
    (0 : Int) ∈ sweepLogged [(0, true)] 31
    ∧ (sweepPass [(0, true)] 31).lookup 0 = none
    ∧ resolveEcho (sweepPass [(0, true)] 31) 0 = sweepPass [(0, true)] 31 :=
  sweep_expires [(0, true)] 0 31 (by decide) (by decide) (by decide)

/-- C1 (evaluation of the code at the failing scenario): sending a group
message while the api channel is connected transmits the payload carrying
`echo = now`, but the echo queue is left untouched — in particular the new
echo is not pending afterwards, contradicting the tracked-at-send-time
contract. -/
theorem sendGroupMsg_never_tracks (c : CQClient) (now groupID : Int) (message : String)
    (hconn : c.connected = true) :
    (SendGroupMsg c now groupID message).sent
        = c.sent ++ [⟨ActionSendGroupMsg, CQParams.sendGroupMsg groupID message, now⟩]
    ∧ (SendGroupMsg c now groupID message).echoqueue = c.echoqueue
    ∧ EchoQueue.pending (SendGroupMsg c now groupID message).echoqueue now
        = EchoQueue.pending c.echoqueue now := by
  simp [SendGroupMsg, APISendJSON, IsAPIOk, hconn]

/-- Witness for `sendGroupMsg_never_tracks`: a freshly connected client with
an empty queue sends at time 100 and id 100 is still not pending. -/
theorem sendGroupMsg_never_tracks_witness :
    (SendGroupMsg ⟨true, [], []⟩ 100 42 "hi").sent
        = [⟨ActionSendGroupMsg, CQParams.sendGroupMsg 42 "hi", 100⟩]
    ∧ (SendGroupMsg ⟨true, [], []⟩ 100 42 "hi").echoqueue = []
    ∧ EchoQueue.pending (SendGroupMsg ⟨true, [], []⟩ 100 42 "hi").echoqueue 100
        = EchoQueue.pending ([] : EchoQueue) 100 :=
  sendGroupMsg_never_tracks ⟨true, [], []⟩ 100 42 "hi" rfl

/-- C9: a send attempted while the api connection is down leaves the whole
client state unchanged (nothing transmitted, no error surfaced — the Go
function has no return value at all). -/
theorem apiSendJSON_disconnected_noop (c : CQClient) (data : CQWSMessage)
    (hdisc : c.connected = false) :
    APISendJSON c data = c := by
  simp [APISendJSON, IsAPIOk, hdisc]

/-- Witness for `apiSendJSON_disconnected_noop` at a concrete state. -/
theorem apiSendJSON_disconnected_noop_witness :
    APISendJSON ⟨false, [], [(7, true)]⟩ ⟨ActionSendGroupMsg, CQParams.sendGroupMsg 1 "x", 9⟩
      = ⟨false, [], [(7, true)]⟩ :=
  apiSendJSON_disconnected_noop ⟨false, [], [(7, true)]⟩ _ rfl

end Coolq
